import Mathlib

/-!
Verification development for the go-edn encoding engine (package edn).

The definitions below are a shallow embedding of the Go source:
  - encode.go        : Marshal, the per-type encoder functions;
  - the stream file  : Encoder / Encoder.Encode;
  - the extra types  : Set, Keyword, Symbol.
Machine integers are modelled as Nat/Int (values are assumed in range for
their Go width; no arithmetic is performed on them by the encoder, only
decimal printing).  Go float32/float64 values are modelled by their IEEE
components (NaN, signed infinity, or a finite value sign * mant * 2^exp),
and strconv.FormatFloat with format g and precision -1 is modelled by the
shortest-round-trip decimal algorithm over exact rationals.
-/

namespace GoEdn

/-- The error kinds of encode.go: UnsupportedTypeError (holds the type's
string), UnsupportedValueError (holds the offending value's textual form),
MarshalerError (holds the type's string and the wrapped cause), and a sink
write error for the stream Encoder. -/
inductive EdnError where
  | unsupportedType (typeName : String)
  | unsupportedValue (str : String)
  | marshalerError (typeName : String) (cause : String)
  | sinkError (msg : String)
deriving DecidableEq

/-! ### Decimal printing of integers (strconv.AppendInt / AppendUint, base 10) -/

def digitChar (n : Nat) : Char := Char.ofNat (48 + n)

/-- Decimal digits of a Nat, most significant first.  The first argument is
fuel; natRepr supplies enough for any input. -/
def natDigits : Nat → Nat → List Char
  | 0, _ => []
  | fuel + 1, n => if n < 10 then [digitChar n] else natDigits fuel (n / 10) ++ [digitChar (n % 10)]

def natRepr (n : Nat) : String := String.mk (natDigits (n + 1) n)

/-- strconv.AppendInt(_, i, 10): sign only when negative. -/
def intRepr (i : Int) : String :=
  if i < 0 then "-" ++ natRepr i.natAbs else natRepr i.natAbs

/-! ### Exact rationals for the float-formatting interval computation.
Denominators are kept positive by construction; no normalisation is needed
because we only add, multiply, compare. -/

structure Q where
  num : Int
  den : Nat
deriving DecidableEq

def qOfNat (n : Nat) : Q := ⟨Int.ofNat n, 1⟩

def qMul (a b : Q) : Q := ⟨a.num * b.num, a.den * b.den⟩

def qSub (a b : Q) : Q := ⟨a.num * Int.ofNat b.den - b.num * Int.ofNat a.den, a.den * b.den⟩

def qAdd (a b : Q) : Q := ⟨a.num * Int.ofNat b.den + b.num * Int.ofNat a.den, a.den * b.den⟩

def qLe (a b : Q) : Bool := a.num * Int.ofNat b.den ≤ b.num * Int.ofNat a.den

def qLt (a b : Q) : Bool := a.num * Int.ofNat b.den < b.num * Int.ofNat a.den

def qHalf (a : Q) : Q := ⟨a.num, a.den * 2⟩

/-- 2^e as an exact rational, e possibly negative. -/
def qPow2 (e : Int) : Q :=
  if 0 ≤ e then ⟨Int.ofNat (2 ^ e.toNat), 1⟩ else ⟨1, 2 ^ (-e).toNat⟩

/-- 10^e as an exact rational, e possibly negative. -/
def qPow10 (e : Int) : Q :=
  if 0 ≤ e then ⟨Int.ofNat (10 ^ e.toNat), 1⟩ else ⟨1, 10 ^ (-e).toNat⟩

/-- floor(a / b) for positive rationals, as a Nat. -/
def qFloorDiv (a b : Q) : Nat :=
  ((a.num * Int.ofNat b.den) / (b.num * Int.ofNat a.den)).toNat

/-! ### Go float values and strconv.FormatFloat(f, g, -1, bits) -/

/-- A Go float32/float64 value by its IEEE components: NaN, a signed
infinity, or a finite value (-1)^neg * mant * 2^exp (mant = 0 encodes a
signed zero). -/
inductive GoFloat where
  | nan
  | inf (neg : Bool)
  | finite (neg : Bool) (mant : Nat) (exp : Int)
deriving DecidableEq

/-- math.IsNaN. -/
def isNaNF : GoFloat → Bool
  | .nan => true
  | _ => false

/-- math.IsInf(f, 0): infinity of either sign. -/
def isInfF : GoFloat → Bool
  | .inf _ => true
  | _ => false

/-- The exact value of a finite float. -/
def floatValQ (mant : Nat) (exp : Int) : Q := qMul (qOfNat mant) (qPow2 exp)

/-- Largest k with 10^(k+1) <= v, counting up from k; fuel-bounded (700 is
far beyond any float64 decimal exponent). -/
def decExpUp : Nat → Nat → Q → Nat
  | 0, k, _ => k
  | fuel + 1, k, v => if qLe (qPow10 (Int.ofNat k + 1)) v then decExpUp fuel (k + 1) v else k

/-- Largest (negative) k with 10^k <= v for v < 1, counting down; fuel-bounded. -/
def decExpDown : Nat → Int → Q → Int
  | 0, k, _ => k
  | fuel + 1, k, v => if qLe (qPow10 k) v then k else decExpDown fuel (k - 1) v

/-- Largest k with 10^k <= v, for v > 0. -/
def decExpOf (v : Q) : Int :=
  if qLe (qOfNat 1) v then Int.ofNat (decExpUp 700 0 v) else decExpDown 700 (-1) v

/-- Try to place an n-significant-digit decimal d * 10^(k-n+1) inside the
round-trip interval (low, high) (closed when incl).  Candidates are the two
n-digit decimals bracketing v; among both the one closer to v wins, a tie
going to the even digit string, matching the shortest-decimal rule of
strconv. -/
def tryDigits (v low high : Q) (incl : Bool) (k : Int) (n : Nat) : Option Nat :=
  let s := qPow10 (k - Int.ofNat n + 1)
  let d0 := qFloorDiv v s
  let cand := fun (d : Nat) => qMul (qOfNat d) s
  let inI := fun (x : Q) => if incl then qLe low x && qLe x high else qLt low x && qLt x high
  let in0 := inI (cand d0)
  let in1 := inI (cand (d0 + 1))
  if in0 && in1 then
    let diff0 := qSub v (cand d0)
    let diff1 := qSub (cand (d0 + 1)) v
    if qLt diff0 diff1 then some d0
    else if qLt diff1 diff0 then some (d0 + 1)
    else if d0 % 2 = 0 then some d0 else some (d0 + 1)
  else if in0 then some d0
  else if in1 then some (d0 + 1)
  else none

/-- Search digit counts n, n+1, ... (fuel-bounded; 18 tries from n = 1 cover
every float64).  Returns (digits, digit count). -/
def shortestLoop (v low high : Q) (incl : Bool) (k : Int) : Nat → Nat → Option (Nat × Nat)
  | 0, _ => none
  | fuel + 1, n =>
    match tryDigits v low high incl k n with
    | some d => some (d, n)
    | none => shortestLoop v low high incl k fuel (n + 1)

/-- Strip trailing zero digits (the shortest form carries none). -/
def stripZeros : Nat → Nat → Nat
  | 0, d => d
  | fuel + 1, d => if d ≥ 10 && d % 10 = 0 then stripZeros fuel (d / 10) else d

def numDigits (d : Nat) : Nat := (natDigits (d + 1) d).length

/-- strconv fmtE: d.ddd e±XX with at least two exponent digits. -/
def fmtE (ds : List Char) (expE : Int) : String :=
  let head := String.mk (ds.take 1)
  let tail := if ds.length > 1 then "." ++ String.mk (ds.drop 1) else ""
  let sign := if expE < 0 then "-" else "+"
  let a := expE.natAbs
  let digits := if a < 10 then "0" ++ natRepr a else natRepr a
  head ++ tail ++ "e" ++ sign ++ digits

/-- strconv fmtF at precision max(nd-dp, 0): plain decimal notation, decimal
point position dp (value = 0.digits * 10^dp). -/
def fmtF (ds : List Char) (dp : Int) : String :=
  if dp ≤ 0 then
    "0." ++ String.mk (List.replicate (-dp).toNat '0') ++ String.mk ds
  else if dp ≥ Int.ofNat ds.length then
    String.mk ds ++ String.mk (List.replicate (dp.toNat - ds.length) '0')
  else
    String.mk (ds.take dp.toNat) ++ "." ++ String.mk (ds.drop dp.toNat)

/-- The g-format body for shortest digits d with decimal point position dp:
%e when the exponent is < -4 or >= 6 (strconv uses eprec = 6 for shortest),
else %f. -/
def fmtG (d : Nat) (dp : Int) : String :=
  let ds := natDigits (d + 1) d
  let expE := dp - 1
  if expE < -4 || expE ≥ 6 then fmtE ds expE else fmtF ds dp

/-- Shortest round-trippable decimal for a finite positive float
mant * 2^exp of the given mantissa width (53 for float64, 24 for float32),
g-formatted.  The round-trip interval is
(v - ulpDown/2, v + ulpUp/2), closed when mant is even, where ulpUp = 2^exp
and ulpDown = 2^(exp-1) exactly at a power-of-two mantissa above the
subnormal range. -/
def formatFinitePos (mant : Nat) (exp : Int) (mantBits : Nat) (minExp : Int) : String :=
  let v := floatValQ mant exp
  let ulpUp := qPow2 exp
  let ulpDown := if mant = 2 ^ (mantBits - 1) && minExp < exp then qPow2 (exp - 1) else qPow2 exp
  let low := qSub v (qHalf ulpDown)
  let high := qAdd v (qHalf ulpUp)
  let incl := mant % 2 = 0
  let k := decExpOf v
  match shortestLoop v low high incl k 18 1 with
  | some (d, n) =>
    let d2 := stripZeros 30 d
    let dp := k + 1
    let _ := n
    fmtG d2 dp
  | none => fmtG mant exp

/-- strconv.FormatFloat(f, g, -1, bits): NaN and the infinities have fixed
spellings; finite values use the shortest round-trip digits. -/
def formatFloat (f : GoFloat) (bits : Nat) : String :=
  match f with
  | .nan => "NaN"
  | .inf neg => if neg then "-Inf" else "+Inf"
  | .finite neg mant exp =>
    let sign := if neg then "-" else ""
    if mant = 0 then sign ++ "0"
    else if bits = 32 then sign ++ formatFinitePos mant exp 24 (-149)
    else sign ++ formatFinitePos mant exp 53 (-1074)

/-! ### Go-syntax string quoting: fmt.Sprintf with the hash-v verb on a
string, i.e. strconv.Quote.  Printable runes (anything at or above 0x20
other than 0x7f) stay as written, including non-ASCII; quote and backslash
are escaped; control bytes use the named escapes or a hex escape.  (Go also
hex/unicode-escapes unprintable runes above 0x7f and invalid UTF-8; the
modelled strings contain none.) -/

def hexDigit (n : Nat) : Char :=
  if n < 10 then Char.ofNat (48 + n) else Char.ofNat (87 + n)

def quoteChar (c : Char) : String :=
  if c = '"' then "\\\""
  else if c = '\\' then "\\\\"
  else if c = Char.ofNat 7 then "\\a"
  else if c = Char.ofNat 8 then "\\b"
  else if c = Char.ofNat 12 then "\\f"
  else if c = Char.ofNat 10 then "\\n"
  else if c = Char.ofNat 13 then "\\r"
  else if c = Char.ofNat 9 then "\\t"
  else if c = Char.ofNat 11 then "\\v"
  else if c.toNat < 32 || c.toNat = 127 then
    "\\x" ++ String.mk [hexDigit (c.toNat / 16), hexDigit (c.toNat % 16)]
  else String.mk [c]

def goQuote (s : String) : String :=
  "\"" ++ (s.data.map quoteChar).foldl (fun a b => a ++ b) "" ++ "\""

/-! ### base64.StdEncoding (standard alphabet, padding, no line wrapping).
encode.go has a fast path for buffers under 1024 bytes and a streaming path
above; both produce the same standard encoding, modelled once here. -/

def b64Alphabet : List Char :=
  "ABCDEFGHIJKLMNOPQRSTUVWXYZabcdefghijklmnopqrstuvwxyz0123456789+/".data

def b64Char (n : Nat) : Char := b64Alphabet.getD n 'A'

def base64Std : List Nat → String
  | [] => ""
  | [a] =>
    String.mk [b64Char (a / 4), b64Char (a % 4 * 16)] ++ "=="
  | [a, b] =>
    String.mk [b64Char (a / 4), b64Char (a % 4 * 16 + b / 16), b64Char (b % 16 * 4)] ++ "="
  | a :: b :: c :: rest =>
    String.mk [b64Char (a / 4), b64Char (a % 4 * 16 + b / 16),
               b64Char (b % 16 * 4 + c / 64), b64Char (c % 64)] ++ base64Std rest

/-- The bytes of an ASCII string (test inputs only use ASCII). -/
def asciiBytes (s : String) : List Nat := s.data.map Char.toNat

/-! ### uuid.UUID String(): canonical lowercase hyphenated hex for a
16-byte value, the empty string otherwise (go-uuid returns "" when the
length is not 16). -/

def byteHex (n : Nat) : String := String.mk [hexDigit (n / 16), hexDigit (n % 16)]

def bytesHex (bs : List Nat) : String := (bs.map byteHex).foldl (fun a b => a ++ b) ""

def uuidString (bs : List Nat) : String :=
  if bs.length = 16 then
    bytesHex (bs.take 4) ++ "-" ++ bytesHex ((bs.drop 4).take 2) ++ "-" ++
    bytesHex ((bs.drop 6).take 2) ++ "-" ++ bytesHex ((bs.drop 8).take 2) ++ "-" ++
    bytesHex (bs.drop 10)
  else ""

/-- strings.HasPrefix(s, ":"). -/
def hasColonPrefix (s : String) : Bool :=
  match s.data with
  | [] => false
  | c :: _ => c = ':'

/-! ### The value model.  A GoVal is a Go value as seen by Marshal: each
constructor fixes the dynamic type's encoding-relevant identity, mirroring
the dispatch of newTypeEncoder (the dispatch itself is also modelled
separately on GoType below).  Interface slots hold their concrete value
directly (interfaceEncoder unwraps); a nil interface is nilV. -/

inductive GoVal where
  | nilV
  | boolV (b : Bool)
  | intV (i : Int)
  | uintV (n : Nat)
  | floatV (bits : Nat) (f : GoFloat)
  | stringV (s : String)
  | keywordV (s : String)
  | symbolV (s : String)
  | bytesV (bs : Option (List Nat))
  | uuidV (bs : List Nat)
  | byteArrV (bs : List Nat)
  | sliceV (xs : Option (List GoVal))
  | arrayV (xs : List GoVal)
  | mapV (entries : Option (List (GoVal × GoVal)))
  | setV (xs : Option (List GoVal))
  | ptrV (p : Option GoVal)
  | textV (typeName : String) (res : Except String String)
  | listV (xs : List GoVal)
  | timeV (rfc3339 : String)
  | unsupportedV (typeName : String)

/-- A rendering step: the accumulated buffer so far, and the raised error if
any (e.error panics in Go, so once an error appears no further bytes are
written; the buffer keeps what was already written before the panic). -/
abbrev EncRes := String × Option EdnError

/-- floatEncoder.encode: reject NaN and the infinities with an
UnsupportedValueError carrying FormatFloat's text (the panic fires before
any byte is written), else append the g-formatted shortest decimal. -/
def floatEncode (bits : Nat) (f : GoFloat) (buf : String) : EncRes :=
  if isInfF f || isNaNF f then
    (buf, some (.unsupportedValue (formatFloat f bits)))
  else
    (buf ++ formatFloat f bits, none)

mutual

/-- The per-value encoders of encode.go, buffer-passing.  Each arm mirrors
one encoder function; see the comments. -/
def encodeV : GoVal → String → EncRes
  -- invalidValueEncoder (nil interface at the top level)
  | .nilV, buf => (buf ++ "nil", none)
  -- boolEncoder
  | .boolV b, buf => (buf ++ (if b then "true" else "false"), none)
  -- intEncoder: strconv.AppendInt base 10
  | .intV i, buf => (buf ++ intRepr i, none)
  -- uintEncoder: strconv.AppendUint base 10
  | .uintV n, buf => (buf ++ natRepr n, none)
  -- floatEncoder.encode
  | .floatV bits f, buf => floatEncode bits f buf
  -- stringEncoder, default arm: e.string = Go-syntax quote
  | .stringV s, buf => (buf ++ goQuote s, none)
  -- stringEncoder, keywordType arm: prepend a colon unless already present
  | .keywordV s, buf => (buf ++ (if hasColonPrefix s then "" else ":") ++ s, none)
  -- stringEncoder, symbolType arm: verbatim
  | .symbolV s, buf => (buf ++ s, none)
  -- encodeByteSlice: nil slice, then tag + quoted base64
  | .bytesV none, buf => (buf ++ "nil", none)
  | .bytesV (some bs), buf => (buf ++ "#base64 " ++ "\"" ++ base64Std bs ++ "\"", none)
  -- encodeUuid: tag + e.string of uuid.UUID.String()
  | .uuidV bs, buf => (buf ++ "#uuid " ++ goQuote (uuidString bs), none)
  -- a fixed-size byte array goes through newArrayEncoder with uintEncoder
  -- elements ("Byte slices get special treatment; arrays don't.")
  | .byteArrV bs, buf => (buf ++ "[" ++ String.intercalate " " (bs.map natRepr) ++ "]", none)
  -- sliceEncoder.encode: nil check, then the wrapped arrayEncoder
  | .sliceV none, buf => (buf ++ "[]", none)
  | .sliceV (some xs), buf => encodeArrayBody xs (buf ++ "[")
  -- arrayEncoder.encode
  | .arrayV xs, buf => encodeArrayBody xs (buf ++ "[")
  -- mapEncoder.encode, non-set type: nil check after no set prefix
  | .mapV none, buf => (buf ++ "\x7b\x7d", none)
  | .mapV (some es), buf => encodeMapBody true es (buf ++ "\x7b")
  -- mapEncoder.encode, setType: the set prefix is written before the nil
  -- check, so a nil Set still renders with it
  | .setV none, buf => (buf ++ "#" ++ "\x7b\x7d", none)
  | .setV (some xs), buf => encodeSetBody true xs (buf ++ "#" ++ "\x7b")
  -- ptrEncoder.encode
  | .ptrV none, buf => (buf ++ "nil", none)
  | .ptrV (some v), buf => encodeV v buf
  -- textMarshalerEncoder: success goes through e.stringBytes (the same
  -- Go-syntax quoting as ordinary strings); failure wraps in MarshalerError
  | .textV typeName res, buf =>
    match res with
    | .ok b => (buf ++ goQuote b, none)
    | .error msg => (buf, some (.marshalerError typeName msg))
  -- listEncoder
  | .listV xs, buf => encodeListBody true xs (buf ++ "(")
  -- timeEncoder: tag + e.string of the UTC RFC3339Nano text (the time
  -- formatting itself is the standard library's, carried pre-rendered)
  | .timeV s, buf => (buf ++ "#inst " ++ goQuote s, none)
  -- unsupportedTypeEncoder (func, chan, ...): panic before any byte
  | .unsupportedV typeName, buf => (buf, some (.unsupportedType typeName))
termination_by v _ => (sizeOf v, 2)

/-- arrayEncoder.encode body: elements separated by single spaces, then the
closing bracket; an element error aborts (panic). -/
def encodeArrayBody (xs : List GoVal) (buf : String) : EncRes :=
  match encodeElems true " " xs buf with
  | (b, none) => (b ++ "]", none)
  | r => r
termination_by (sizeOf xs, 1)

/-- Elements with a separator before every element but the first. -/
def encodeElems (first : Bool) (sep : String) : List GoVal → String → EncRes
  | [], buf => (buf, none)
  | x :: xs, buf =>
    match encodeV x (if first then buf else buf ++ sep) with
    | (b, none) => encodeElems false sep xs b
    | r => r
termination_by xs _ => (sizeOf xs, 0)

/-- mapEncoder.encode body, non-set: key, space, value, entries joined by
comma-space, then the closing brace. -/
def encodeMapBody (first : Bool) (es : List (GoVal × GoVal)) (buf : String) : EncRes :=
  match es with
  | [] => (buf ++ "\x7d", none)
  | (k, v) :: rest =>
    match encodeV k (if first then buf else buf ++ ", ") with
    | (b, none) =>
      match encodeV v (b ++ " ") with
      | (b2, none) => encodeMapBody false rest b2
      | r => r
    | r => r
termination_by (sizeOf es, 0)

/-- mapEncoder.encode body, setType: keys only, joined by single spaces,
then the closing brace. -/
def encodeSetBody (first : Bool) (xs : List GoVal) (buf : String) : EncRes :=
  match xs with
  | [] => (buf ++ "\x7d", none)
  | x :: rest =>
    match encodeV x (if first then buf else buf ++ " ") with
    | (b, none) => encodeSetBody false rest b
    | r => r
termination_by (sizeOf xs, 0)

/-- listEncoder body: elements joined by single spaces, then the closing
parenthesis. -/
def encodeListBody (first : Bool) (xs : List GoVal) (buf : String) : EncRes :=
  match xs with
  | [] => (buf ++ ")", none)
  | x :: rest =>
    match encodeV x (if first then buf else buf ++ " ") with
    | (b, none) => encodeListBody false rest b
    | r => r
termination_by (sizeOf xs, 0)

end

/-- encodeState.marshal: run the renderer from an empty buffer; a raised
error is recovered and returned. -/
def marshalE (v : GoVal) : Except EdnError String :=
  match encodeV v "" with
  | (buf, none) => .ok buf
  | (_, some e) => .error e

/-- Marshal: (bytes, error) with the Go convention that exactly one side is
set — on any failure the returned bytes are nil, whatever the internal
buffer already held. -/
def Marshal (v : GoVal) : Option String × Option EdnError :=
  match encodeV v "" with
  | (buf, none) => (some buf, none)
  | (_, some e) => (none, some e)

/-! ### The type-level dispatch of newTypeEncoder / newSliceEncoder.
GoType models a Go reflect.Type up to everything the dispatch inspects:
its Kind, its element type, and identity against the named types of the
package (time.Time, uuid.UUID, edn.Set, edn.Keyword, edn.Symbol,
list.List).  Named slice / map / string types carry their name so that
identity tests (t == uuidType, t == setType, ...) are meaningful. -/

inductive GoType where
  | tTime
  | tBool
  | tInt
  | tUint8
  | tUintOther
  | tFloat32
  | tFloat64
  | tString (name : Option String)
  | tInterface
  | tMap (name : Option String) (key elem : GoType)
  | tSlice (name : Option String) (elem : GoType)
  | tArray (n : Nat) (elem : GoType)
  | tPtr (elem : GoType)
  | tList
  | tStruct (name : String) (implementsTM : Bool)
  | tChan (name : String)
deriving DecidableEq

inductive GoKind where
  | boolK | intK | uint8K | uintOtherK | float32K | float64K | stringK
  | interfaceK | mapK | sliceK | arrayK | ptrK | structK | chanK
deriving DecidableEq

def kindOf : GoType → GoKind
  | .tTime => .structK
  | .tBool => .boolK
  | .tInt => .intK
  | .tUint8 => .uint8K
  | .tUintOther => .uintOtherK
  | .tFloat32 => .float32K
  | .tFloat64 => .float64K
  | .tString _ => .stringK
  | .tInterface => .interfaceK
  | .tMap _ _ _ => .mapK
  | .tSlice _ _ => .sliceK
  | .tArray _ _ => .arrayK
  | .tPtr _ => .ptrK
  | .tList => .structK
  | .tStruct _ _ => .structK
  | .tChan _ => .chanK

/-- reflect.Type.Elem() for the kinds that have one. -/
def elemTypeOf : GoType → GoType
  | .tMap _ _ e => e
  | .tSlice _ e => e
  | .tArray _ e => e
  | .tPtr e => e
  | t => t

def timeType : GoType := .tTime
def uuidType : GoType := .tSlice (some "uuid.UUID") .tUint8
def setType : GoType := .tMap (some "edn.Set") .tInterface .tBool
def keywordType : GoType := .tString (some "edn.Keyword")
def symbolType : GoType := .tString (some "edn.Symbol")
def listType : GoType := .tList

/-- t.Implements(textMarshalerType).  time.Time implements TextMarshaler
(which is exactly why newTypeEncoder special-cases it first); among the
modelled struct types the flag records it. -/
def implementsTextMarshaler : GoType → Bool
  | .tTime => true
  | .tStruct _ tm => tm
  | _ => false

/-- Which encoder function newTypeEncoder hands back (payload-free name of
the chosen encoder). -/
inductive EncKind where
  | timeE | ptrE | textMarshalerE
  | boolE | intE | uintE | float32E | float64E | stringE | interfaceE
  | mapE | byteSliceE | uuidE | sliceE | arrayE | listE | unsupportedE
deriving DecidableEq

/-- newSliceEncoder: byte slices get special treatment (base64), except the
uuid.UUID named type; everything else is a generic slice encoder wrapping
an array encoder. -/
def newSliceEncoder (t : GoType) : EncKind :=
  if kindOf (elemTypeOf t) = .uint8K then
    if t = uuidType then .uuidE else .byteSliceE
  else .sliceE

/-- newTypeEncoder, in source order: the time.Time special case, pointer to
time.Time, the TextMarshaler capability, then the kind switch.  (The
CanAddr branch for types whose pointer alone implements TextMarshaler is
omitted: every marshaler-implementing type modelled here implements it on
the value itself, so that branch is never taken.)  The allowAddr flag is
kept for signature fidelity; with the branch above omitted it is unused. -/
def newTypeEncoder (t : GoType) (allowAddr : Bool) : EncKind :=
  let _ := allowAddr
  if t = timeType then .timeE
  else if kindOf t = .ptrK && elemTypeOf t = timeType then .ptrE
  else if implementsTextMarshaler t then .textMarshalerE
  else match kindOf t with
    | .boolK => .boolE
    | .intK => .intE
    | .uint8K => .uintE
    | .uintOtherK => .uintE
    | .float32K => .float32E
    | .float64K => .float64E
    | .stringK => .stringE
    | .interfaceK => .interfaceE
    | .mapK => .mapE
    | .sliceK => newSliceEncoder t
    | .arrayK => .arrayE
    | .ptrK => .ptrE
    | .structK => if t = listType then .listE else .unsupportedE
    | .chanK => .unsupportedE

/-! ### The stream Encoder.  Encoder state: the sticky error and the chunks
successfully written to the sink.  The sink's disposition for one call is
passed as an argument (none: the write succeeds; some e: the write fails
with e). -/

structure EncoderState where
  encErr : Option EdnError
  written : List String
deriving DecidableEq

/-- Encoder.Encode: return the sticky error if set; marshal (a marshal
error is returned without touching the Encoder or the sink); append the
newline terminator; write to the sink, storing a sink failure as the sticky
error. -/
def encoderEncode (st : EncoderState) (sinkRes : Option EdnError) (v : GoVal) :
    EncoderState × Option EdnError :=
  match st.encErr with
  | some e => (st, some e)
  | none =>
    match marshalE v with
    | .error err => (st, some err)
    | .ok bytes =>
      let out := bytes ++ "\n"
      match sinkRes with
      | some ioe => (⟨some ioe, st.written⟩, some ioe)
      | none => (⟨none, st.written ++ [out]⟩, none)

/-! ## Theorems for the spec claims -/

/-- C1: for every float32 or float64 value that is NaN, +Infinity or
-Infinity, the float encoder raises an Unsupported Value error carrying the
value's textual form (NaN, +Inf or -Inf), writes nothing to the buffer, and
Marshal of such a value returns no bytes and that error — it never silently
emits a literal. -/
theorem c1_nonfinite_float_rejected (bits : Nat) (f : GoFloat) (buf : String)
    (h : isNaNF f = true ∨ isInfF f = true) :
    floatEncode bits f buf = (buf, some (.unsupportedValue (formatFloat f bits))) ∧
    Marshal (.floatV bits f) = (none, some (.unsupportedValue (formatFloat f bits))) ∧
    (formatFloat f bits = "NaN" ∨ formatFloat f bits = "+Inf" ∨ formatFloat f bits = "-Inf") := by
  rcases f with _ | neg | ⟨neg, m, e⟩
  · exact ⟨by simp [floatEncode, isInfF, isNaNF],
      by simp [Marshal, encodeV, floatEncode, isInfF, isNaNF],
      by simp [formatFloat]⟩
  · cases neg <;>
      exact ⟨by simp [floatEncode, isInfF],
        by simp [Marshal, encodeV, floatEncode, isInfF],
        by simp [formatFloat]⟩
  · simp [isNaNF, isInfF] at h

theorem c1_witness :
    (isNaNF .nan = true ∨ isInfF .nan = true) ∧
    (floatEncode 64 .nan "" = ("", some (.unsupportedValue (formatFloat .nan 64))) ∧
     Marshal (.floatV 64 .nan) = (none, some (.unsupportedValue (formatFloat .nan 64))) ∧
     (formatFloat .nan 64 = "NaN" ∨ formatFloat .nan 64 = "+Inf" ∨
      formatFloat .nan 64 = "-Inf")) :=
  ⟨Or.inl rfl, c1_nonfinite_float_rejected 64 .nan "" (Or.inl rfl)⟩

/-- C2: whenever Marshal fails, the returned byte slice is nil — even when
the internal buffer already held partial output at the moment of failure,
as the concrete run here shows (the buffer holds "[1 " when the NaN element
aborts the encode, yet Marshal returns no bytes). -/
theorem c2_marshal_failure_returns_no_bytes (v : GoVal)
    (h : (Marshal v).2.isSome = true) :
    (Marshal v).1 = none ∧
    encodeV (.sliceV (some [.intV 1, .floatV 64 .nan])) "" =
      ("[1 ", some (.unsupportedValue "NaN")) ∧
    Marshal (.sliceV (some [.intV 1, .floatV 64 .nan])) =
      (none, some (.unsupportedValue "NaN")) := by
  refine ⟨?_, ?_, ?_⟩
  · rcases hE : encodeV v "" with ⟨b, o⟩
    cases o <;> simp [Marshal, hE] at h ⊢
  · simp only [encodeV, encodeArrayBody, encodeElems]
    decide
  · simp only [Marshal, encodeV, encodeArrayBody, encodeElems]
    decide

theorem c2_witness :
    ((Marshal (.floatV 64 .nan)).2.isSome = true) ∧
    ((Marshal (.floatV 64 .nan)).1 = none ∧
     encodeV (.sliceV (some [.intV 1, .floatV 64 .nan])) "" =
       ("[1 ", some (.unsupportedValue "NaN")) ∧
     Marshal (.sliceV (some [.intV 1, .floatV 64 .nan])) =
       (none, some (.unsupportedValue "NaN"))) :=
  ⟨by simp [Marshal, encodeV, floatEncode, isInfF, isNaNF],
   c2_marshal_failure_returns_no_bytes (.floatV 64 .nan)
     (by simp [Marshal, encodeV, floatEncode, isInfF, isNaNF])⟩

/-- C3 counterexample: a fixed-length byte array is a sequential shape
whose element type is a single-byte unsigned integer and is not the UUID
type, yet newTypeEncoder hands it the generic array encoder, not the Byte
Blob one, and the concrete value [3]byte(65, 66, 67) marshals to the vector
text, not to a base64 tagged literal ("Byte slices get special treatment;
arrays don't"). -/
theorem c3_counterexample :
    kindOf (.tArray 3 .tUint8) = .arrayK ∧
    kindOf (elemTypeOf (.tArray 3 .tUint8)) = .uint8K ∧
    (GoType.tArray 3 .tUint8) ≠ uuidType ∧
    newTypeEncoder (.tArray 3 .tUint8) true = .arrayE ∧
    EncKind.arrayE ≠ EncKind.byteSliceE ∧
    Marshal (.byteArrV [65, 66, 67]) = (some "[65 66 67]", none) := by
  refine ⟨by decide, by decide, by decide, by decide, by decide, ?_⟩
  simp only [Marshal, encodeV]
  decide

/-- C3 amended: every variable-length sequential shape (slice) whose
element type is a single-byte unsigned integer is dispatched to the Byte
Blob (base64) renderer, except the shape equal to the Unique Identifier
type, which gets the UUID renderer; fixed-length byte arrays use the
generic sequence renderer instead. -/
theorem c3_byte_slice_dispatch (t : GoType) (h1 : kindOf t = .sliceK)
    (h2 : kindOf (elemTypeOf t) = .uint8K) :
    newTypeEncoder t true = (if t = uuidType then .uuidE else .byteSliceE) := by
  cases t <;>
    simp_all [newTypeEncoder, newSliceEncoder, kindOf, elemTypeOf, timeType,
      implementsTextMarshaler]

theorem c3_witness :
    (kindOf (.tSlice none .tUint8) = .sliceK) ∧
    (kindOf (elemTypeOf (.tSlice none .tUint8)) = .uint8K) ∧
    newTypeEncoder (.tSlice none .tUint8) true =
      (if (GoType.tSlice none .tUint8) = uuidType then .uuidE else .byteSliceE) :=
  ⟨rfl, rfl, c3_byte_slice_dispatch (.tSlice none .tUint8) rfl rfl⟩

/-- C4 counterexample: a TextMarshaler whose MarshalText succeeds with
bytes containing a double quote is NOT emitted verbatim between quotes; the
engine escapes the output (stringBytes quotes with the Go-syntax verb), so
the emitted literal differs from the claim's already-escaped form. -/
theorem c4_counterexample :
    encodeV (.textV "edn_test.coolness" (.ok "say \"hi\"")) "" =
      ("\"say \\\"hi\\\"\"", none) ∧
    encodeV (.textV "edn_test.coolness" (.ok "say \"hi\"")) "" ≠
      ("\"" ++ "say \"hi\"" ++ "\"", none) := by
  constructor
  · simp only [encodeV]
    decide
  · simp only [encodeV]
    decide

/-- C4 amended: for every value whose type implements TextMarshaler and
whose call succeeds, the engine emits the returned bytes as a quoted string
literal produced by the same escaping used for ordinary strings (embedded
quotes and backslashes are escaped) — identical to encoding a plain string
with that content. -/
theorem c4_text_marshaler_escaped_like_string (name b buf : String) :
    encodeV (.textV name (.ok b)) buf = (buf ++ goQuote b, none) ∧
    encodeV (.textV name (.ok b)) buf = encodeV (.stringV b) buf := by
  constructor <;> simp [encodeV]

/-- C5: keyword encoding is idempotent on the colon prefix: a stored name
without a leading colon gets exactly one added, a stored name already
carrying one is emitted unchanged, and prefixing a colon-free name with a
colon does not change its encoding. -/
theorem c5_keyword_colon_idempotent (s t buf : String)
    (h : hasColonPrefix t = false) :
    (hasColonPrefix s = false → encodeV (.keywordV s) buf = (buf ++ ":" ++ s, none)) ∧
    (hasColonPrefix s = true → encodeV (.keywordV s) buf = (buf ++ s, none)) ∧
    encodeV (.keywordV (":" ++ t)) buf = encodeV (.keywordV t) buf := by
  have hp : hasColonPrefix (":" ++ t) = true := rfl
  exact ⟨fun hs => by simp [encodeV, hs], fun hs => by simp [encodeV, hs],
    by simp [encodeV, h, hp, String.append_assoc]⟩

theorem c5_witness :
    (hasColonPrefix "foo/bar" = false) ∧
    ((hasColonPrefix ":wow" = false →
        encodeV (.keywordV ":wow") "" = ("" ++ ":" ++ ":wow", none)) ∧
     (hasColonPrefix ":wow" = true →
        encodeV (.keywordV ":wow") "" = ("" ++ ":wow", none)) ∧
     encodeV (.keywordV (":" ++ "foo/bar")) "" = encodeV (.keywordV "foo/bar") "") :=
  ⟨rfl, c5_keyword_colon_idempotent ":wow" "foo/bar" "" rfl⟩

/-- C6: the empty sequence, map and set encode to the two-character vector,
map and prefixed-set delimiters respectively, whether the container is
absent (nil) or present but zero-length. -/
theorem c6_empty_containers :
    Marshal (.sliceV none) = (some "[]", none) ∧
    Marshal (.sliceV (some [])) = (some "[]", none) ∧
    Marshal (.mapV none) = (some "\x7b\x7d", none) ∧
    Marshal (.mapV (some [])) = (some "\x7b\x7d", none) ∧
    Marshal (.setV none) = (some ("#" ++ "\x7b\x7d"), none) ∧
    Marshal (.setV (some [])) = (some ("#" ++ "\x7b\x7d"), none) := by
  refine ⟨?_, ?_, ?_, ?_, ?_, ?_⟩ <;>
    first
    | (simp only [Marshal, encodeV]; decide)
    | (simp only [Marshal, encodeV, encodeArrayBody, encodeElems, encodeMapBody,
        encodeSetBody]; decide)

/-- C7: the byte slice holding the ASCII of "any + old & data" marshals to
exactly the base64 tagged literal of the spec; in general every non-nil
byte slice renders as the base64 tag followed by the quoted
standard-alphabet base64 text, and a nil byte slice renders as nil. -/
theorem c7_byte_blob_base64 :
    Marshal (.bytesV (some (asciiBytes "any + old & data"))) =
      (some "#base64 \"YW55ICsgb2xkICYgZGF0YQ==\"", none) ∧
    (∀ (bs : List Nat) (buf : String),
      encodeV (.bytesV (some bs)) buf =
        (buf ++ "#base64 " ++ "\"" ++ base64Std bs ++ "\"", none)) ∧
    Marshal (.bytesV none) = (some "nil", none) := by
  refine ⟨?_, ?_, ?_⟩
  · simp only [Marshal, encodeV]
    decide
  · intro bs buf
    simp [encodeV]
  · simp only [Marshal, encodeV]
    decide

/-- C8: once a sink write has failed, the stored failure is sticky: every
later Encode call returns exactly that failure and leaves the Encoder state
(including everything written to the sink) untouched, whatever value is
passed and whatever the sink would now do; and a sink failure on a
successful marshal is what stores that failure. -/
theorem c8_encoder_sticky_failure (st : EncoderState) (sinkRes : Option EdnError)
    (v : GoVal) (e : EdnError) (h : st.encErr = some e) :
    encoderEncode st sinkRes v = (st, some e) ∧
    (∀ (st2 : EncoderState) (v2 : GoVal) (b : String) (ioe : EdnError),
      st2.encErr = none → marshalE v2 = .ok b →
      encoderEncode st2 (some ioe) v2 = (⟨some ioe, st2.written⟩, some ioe)) := by
  constructor
  · simp [encoderEncode, h]
  · intro st2 v2 b ioe h0 hm
    simp [encoderEncode, h0, hm]

theorem c8_witness :
    ((⟨some (.sinkError "broken pipe"), ["true\n"]⟩ : EncoderState).encErr =
      some (.sinkError "broken pipe")) ∧
    (encoderEncode ⟨some (.sinkError "broken pipe"), ["true\n"]⟩ none (.boolV true) =
      (⟨some (.sinkError "broken pipe"), ["true\n"]⟩, some (.sinkError "broken pipe")) ∧
     (∀ (st2 : EncoderState) (v2 : GoVal) (b : String) (ioe : EdnError),
       st2.encErr = none → marshalE v2 = .ok b →
       encoderEncode st2 (some ioe) v2 = (⟨some ioe, st2.written⟩, some ioe))) :=
  ⟨rfl, c8_encoder_sticky_failure ⟨some (.sinkError "broken pipe"), ["true\n"]⟩
    none (.boolV true) (.sinkError "broken pipe") rfl⟩

/-- C9: a value-level marshal failure inside Encoder.Encode is returned but
does not poison the Encoder: the state is left exactly as it was (sticky
error still unset, nothing — not even the newline — written to the sink),
and a subsequent Encode of a value that marshals fine succeeds and appends
its newline-terminated bytes. -/
theorem c9_marshal_error_does_not_poison (st : EncoderState)
    (sinkRes : Option EdnError) (v : GoVal) (err : EdnError)
    (h0 : st.encErr = none) (h1 : marshalE v = .error err) :
    encoderEncode st sinkRes v = (st, some err) ∧
    (∀ (v2 : GoVal) (b : String), marshalE v2 = .ok b →
      encoderEncode st none v2 = (⟨none, st.written ++ [b ++ "\n"]⟩, none)) := by
  constructor
  · simp [encoderEncode, h0, h1]
  · intro v2 b hm
    simp [encoderEncode, h0, hm]

theorem c9_witness :
    ((⟨none, []⟩ : EncoderState).encErr = none) ∧
    (marshalE (.floatV 64 .nan) = .error (.unsupportedValue "NaN")) ∧
    (encoderEncode ⟨none, []⟩ none (.floatV 64 .nan) =
      (⟨none, []⟩, some (.unsupportedValue "NaN")) ∧
     (∀ (v2 : GoVal) (b : String), marshalE v2 = .ok b →
       encoderEncode ⟨none, []⟩ none v2 =
         (⟨none, ([] : List String) ++ [b ++ "\n"]⟩, none))) :=
  ⟨rfl, by simp [marshalE, encodeV, floatEncode, isInfF, isNaNF, formatFloat],
   c9_marshal_error_does_not_poison ⟨none, []⟩ none (.floatV 64 .nan)
     (.unsupportedValue "NaN") rfl
     (by simp [marshalE, encodeV, floatEncode, isInfF, isNaNF, formatFloat])⟩

/-- C10: float and integer encodings are not disjoint: the float64 value
2.0 (mantissa 2^52, exponent -51) renders as the bare digit string 2 —
no decimal point, no exponent — byte-identical to the encoding of the
integer 2. -/
theorem c10_float_int_literal_overlap :
    Marshal (.floatV 64 (.finite false (2 ^ 52) (-51))) = (some "2", none) ∧
    Marshal (.intV 2) = (some "2", none) ∧
    "2".data.all Char.isDigit = true := by
  refine ⟨?_, ?_, by decide⟩
  · simp only [Marshal, encodeV]
    decide
  · simp only [Marshal, encodeV]
    decide

end GoEdn
